import Mathlib

/-!
Verification of the portal reverse proxy's protocol core.

The definitions below are a shallow embedding of the Rust sources:

* `src/protocol/types.rs`  — VarInt and string codec (`read_var_int`,
  `var_int_size`, `write_var_int`, `read_string`);
* `src/protocol/mod.rs`    — `DecoderState` with its `bytes` method and its
  `std::io::Read` implementation, and `PacketDecoder::decode`;
* `src/protocol/handshake.rs`, `status.rs`, `login.rs` — the typed packet
  decoders;
* `src/main.rs`            — the `STATUS_RESPONSE` constant, the status loop
  of `status_handler`, and the control flow of `connection_handler`;
* `src/external_process.rs` — `ExternalProcess::spawn_once`.

Machine integers are modelled as follows: i32 values flowing through the
byte-level decoder are represented by their 32-bit two's-complement bit
patterns (a `Nat` below `2 ^ 32`); the signedness checks of the source
(`raw_len < 0`, `len < 0`) become pattern comparisons against `2 ^ 31`.
`write_var_int` works on the signed value itself (an `Int`), because its
loop uses the arithmetic shift `int >>= 7`, which on two's complement equals
flooring division by `128` (written `int / 128`, the Euclidean division of
`Int`, which agrees with flooring division for a positive divisor).
-/

/-- Error kinds surfaced by the decoding path.  `eof` is
`io::ErrorKind::UnexpectedEof`, `invalidData` is `InvalidData`,
`unsupported` is `Unsupported`.  `panicked` marks a Rust panic: the
`Read` implementation of `DecoderState` calls `copy_from_slice` with a
source slice shorter than the destination whenever
`0 < remaining bytes < requested bytes`, which aborts instead of
returning an error. -/
inductive DErr
  | eof
  | invalidData
  | unsupported
  | panicked
deriving DecidableEq, Repr

/-- `DecoderState` from `src/protocol/mod.rs`: a byte buffer together with a
read offset.  Bytes are natural numbers below 256. -/
structure DecoderState where
  buffer : List Nat
  offset : Nat
deriving DecidableEq, Repr

/-- `DecoderState::bytes`: hand out `count` bytes starting at the offset,
or fail with `UnexpectedEof` when the buffer is too short.  Mirrors

  let start = self.offset; let end = self.offset + count;
  if self.buffer.len() < end \x7b return Err(UnexpectedEof) \x7d
  self.offset += count; Ok(&self.buffer[start..end]) -/
def DecoderState.bytesAt (s : DecoderState) (count : Nat) :
    Except DErr (List Nat × DecoderState) :=
  if s.buffer.length < s.offset + count then .error .eof
  else .ok ((s.buffer.drop s.offset).take count,
            { buffer := s.buffer, offset := s.offset + count })

/-- The `std::io::Read` implementation of `DecoderState`, as exercised by
`read_exact` with a destination buffer of `count` bytes (all the
`byteorder` helpers `read_u8` / `read_u16` / `read_i64` / `read_u128` go
through it).  The source computes `len = min(count, available)`; `len = 0`
is an `UnexpectedEof` error, and `0 < len < count` reaches
`buf.copy_from_slice(bytes)` with a source slice of length `len`, which
panics because the lengths differ. -/
def DecoderState.readExact (s : DecoderState) (count : Nat) :
    Except DErr (List Nat × DecoderState) :=
  let len := Nat.min count (s.buffer.length - s.offset)
  if len = 0 then .error .eof
  else if len < count then .error .panicked
  else s.bytesAt count

/-- One pass of the `for i in 0..5` loop of `read_var_int`
(`src/protocol/types.rs`).  `remaining` counts the loop iterations still
allowed (five in total), `i` is the loop index, `value` is the i32
accumulator as a 32-bit pattern.  Each byte contributes its low 7 bits
shifted by `7 * i`; the i32 shift discards bits above 31, hence the
`% 2 ^ 32`. -/
def readVarIntLoop : Nat → Nat → Nat → DecoderState →
    Except DErr (Nat × DecoderState)
  | 0, _, _, _ => .error .invalidData
  | remaining + 1, i, value, s =>
    match s.readExact 1 with
    | .error e => .error e
    | .ok (bs, s1) =>
      let byte := bs.headD 0
      let value1 := value ||| ((byte &&& 127) <<< (i * 7)) % 2 ^ 32
      if byte &&& 128 = 0 then .ok (value1, s1)
      else readVarIntLoop remaining (i + 1) value1 s1

/-- `read_var_int` from `src/protocol/types.rs`: up to five continuation
bytes, then the `InvalidData` error "variant takes up too many bytes". -/
def read_var_int (s : DecoderState) : Except DErr (Nat × DecoderState) :=
  readVarIntLoop 5 0 0 s

/-- Fuelled bit length: `bitLenAux fuel n` is the number of binary digits
of `n`, provided `n < 2 ^ fuel`.  Used to express `i32::leading_zeros`. -/
def bitLenAux : Nat → Nat → Nat
  | 0, _ => 0
  | fuel + 1, n => if n = 0 then 0 else bitLenAux fuel (n / 2) + 1

/-- The 32-bit two's-complement pattern of a signed value. -/
def toPattern (v : Int) : Nat := (Int.emod v (2 ^ 32)).toNat

/-- The signed reading of a 32-bit pattern. -/
def toSigned32 (n : Nat) : Int :=
  if n < 2 ^ 31 then (n : Int) else (n : Int) - 2 ^ 32

/-- `var_int_size` from `src/protocol/types.rs`:

  let bits = 32 - int.leading_zeros();
  usize::max((bits + 6) / 7, 1)

`32 - leading_zeros` is the bit length of the 32-bit pattern. -/
def var_int_size (v : Int) : Nat :=
  let bits := bitLenAux 32 (toPattern v)
  Nat.max ((bits + 6) / 7) 1

/-- The loop of `write_var_int` from `src/protocol/types.rs`:

  loop \x7b
    let byte = (int & 0x7f) as u8;
    int >>= 7;
    if int != 0 \x7b dest.write_u8(byte | 0x80)?; \x7d
    else \x7b dest.write_u8(byte)?; break; \x7d
  \x7d

`int & 0x7f` is `int % 128` (Euclidean remainder) and the arithmetic
shift `int >>= 7` is flooring division by 128, i.e. `int / 128` with the
Euclidean division of `Int`, which agrees with flooring division since
the divisor is positive.  The loop has no structural bound — for a
negative `int` the shift converges to `-1` and never reaches `0` — so
the model takes fuel and returns `none` when the fuel runs out. -/
def write_var_int_fuel : Nat → Int → Option (List Nat)
  | 0, _ => none
  | fuel + 1, int =>
    let byte := (int % 128).toNat
    let rest := int / 128
    if rest = 0 then some [byte]
    else (write_var_int_fuel fuel rest).map (fun bs => (byte ||| 128) :: bs)

/-- Whether a byte is a UTF-8 continuation byte (`0x80..=0xBF`). -/
def utf8Cont (b : Nat) : Bool := 128 ≤ b && b ≤ 191

/-- Fuelled UTF-8 validity check over a byte list, following the
validity rules enforced by `str::from_utf8` (the ASCII / 2- / 3- /
4-byte forms, rejecting overlong encodings, surrogates and values above
U+10FFFF).  The fuel only drives termination; `utf8Valid` passes the
list length, which always suffices since every step consumes at least
one byte. -/
def utf8ValidFuel : Nat → List Nat → Bool
  | 0, l => l.isEmpty
  | _ + 1, [] => true
  | fuel + 1, b :: rest =>
    if b ≤ 127 then utf8ValidFuel fuel rest
    else if 194 ≤ b && b ≤ 223 then
      match rest with
      | c1 :: r => utf8Cont c1 && utf8ValidFuel fuel r
      | [] => false
    else if b = 224 then
      match rest with
      | c1 :: c2 :: r =>
        (160 ≤ c1 && c1 ≤ 191) && utf8Cont c2 && utf8ValidFuel fuel r
      | _ => false
    else if (225 ≤ b && b ≤ 236) || b = 238 || b = 239 then
      match rest with
      | c1 :: c2 :: r => utf8Cont c1 && utf8Cont c2 && utf8ValidFuel fuel r
      | _ => false
    else if b = 237 then
      match rest with
      | c1 :: c2 :: r =>
        (128 ≤ c1 && c1 ≤ 159) && utf8Cont c2 && utf8ValidFuel fuel r
      | _ => false
    else if b = 240 then
      match rest with
      | c1 :: c2 :: c3 :: r =>
        (144 ≤ c1 && c1 ≤ 191) && utf8Cont c2 && utf8Cont c3 &&
          utf8ValidFuel fuel r
      | _ => false
    else if 241 ≤ b && b ≤ 243 then
      match rest with
      | c1 :: c2 :: c3 :: r =>
        utf8Cont c1 && utf8Cont c2 && utf8Cont c3 && utf8ValidFuel fuel r
      | _ => false
    else if b = 244 then
      match rest with
      | c1 :: c2 :: c3 :: r =>
        (128 ≤ c1 && c1 ≤ 143) && utf8Cont c2 && utf8Cont c3 &&
          utf8ValidFuel fuel r
      | _ => false
    else false

/-- UTF-8 validity of a byte list. -/
def utf8Valid (l : List Nat) : Bool := utf8ValidFuel l.length l

/-- `read_string` from `src/protocol/types.rs`: a VarInt length (negative
lengths — pattern at or above `2 ^ 31` — are `InvalidData`), then that
many bytes via `DecoderState::bytes`, which must be valid UTF-8.  The
decoded string is kept as its byte list. -/
def read_string (s : DecoderState) : Except DErr (List Nat × DecoderState) :=
  match read_var_int s with
  | .error e => .error e
  | .ok (len, s1) =>
    if 2 ^ 31 ≤ len then .error .invalidData
    else
      match s1.bytesAt len with
      | .error e => .error e
      | .ok (bs, s2) => if utf8Valid bs then .ok (bs, s2) else .error .invalidData

/-- Big-endian value of a byte list. -/
def beNat (bs : List Nat) : Nat := bs.foldl (fun acc b => acc * 256 + b) 0

/-- `NextState` from `src/protocol/handshake.rs`. -/
inductive NextState
  | statusState
  | loginState
  | transferState
deriving DecidableEq, Repr

/-- `HandshakePacket` from `src/protocol/handshake.rs`.  `version` is the
i32 pattern of the VarInt field, `address` the UTF-8 bytes of the string
field, `port` the big-endian u16. -/
structure HandshakeData where
  version : Nat
  address : List Nat
  port : Nat
  next_state : NextState
deriving DecidableEq, Repr

/-- `HandshakePacket::decode_packet`: packet number must be 0; then a
VarInt version, a string address, a big-endian u16 port (read through the
panicking `Read` implementation), and a VarInt next state that must be
1, 2 or 3 — anything else is the `InvalidData` error "unknown next state
identifier". -/
def handshakeDecode (number : Nat) (s : DecoderState) :
    Except DErr (HandshakeData × DecoderState) :=
  if number ≠ 0 then .error .invalidData
  else
    match read_var_int s with
    | .error e => .error e
    | .ok (version, s1) =>
      match read_string s1 with
      | .error e => .error e
      | .ok (address, s2) =>
        match s2.readExact 2 with
        | .error e => .error e
        | .ok (pb, s3) =>
          match read_var_int s3 with
          | .error e => .error e
          | .ok (k, s4) =>
            match k with
            | 1 => .ok (⟨version, address, beNat pb, .statusState⟩, s4)
            | 2 => .ok (⟨version, address, beNat pb, .loginState⟩, s4)
            | 3 => .ok (⟨version, address, beNat pb, .transferState⟩, s4)
            | _ => .error .invalidData

/-- Server-bound status packets (`src/protocol/status.rs`).  The ping
timestamp is kept as the 64-bit big-endian pattern that was read. -/
inductive StatusSB
  | statusRequest
  | pingRequest (ts : Nat)
deriving DecidableEq, Repr

/-- `status::ServerBound::decode_packet`: id 0 is `StatusRequest` (reads
nothing), id 1 is `PingRequest` of a big-endian i64 (read through the
panicking `Read` implementation), every other id is `InvalidData`. -/
def statusDecode (number : Nat) (s : DecoderState) :
    Except DErr (StatusSB × DecoderState) :=
  match number with
  | 0 => .ok (.statusRequest, s)
  | 1 =>
    match s.readExact 8 with
    | .error e => .error e
    | .ok (bs, s1) => .ok (.pingRequest (beNat bs), s1)
  | _ => .error .invalidData

/-- Server-bound login packets (`src/protocol/login.rs`). -/
inductive LoginSB
  | loginStart (name : List Nat) (uuid : Nat)
deriving DecidableEq, Repr

/-- `login::ServerBound::decode_packet`: id 0 is `LoginStart` (a string
name and a big-endian u128 uuid, the latter read through the panicking
`Read` implementation), ids 1, 2, 3 are `Unsupported`, every other id is
`InvalidData`. -/
def loginDecode (number : Nat) (s : DecoderState) :
    Except DErr (LoginSB × DecoderState) :=
  match number with
  | 0 =>
    match read_string s with
    | .error e => .error e
    | .ok (name, s1) =>
      match s1.readExact 16 with
      | .error e => .error e
      | .ok (bs, s2) => .ok (.loginStart name (beNat bs), s2)
  | 1 => .error .unsupported
  | 2 => .error .unsupported
  | 3 => .error .unsupported
  | _ => .error .invalidData

/-- The mutable state of `PacketDecoder` (`src/protocol/mod.rs`): the
`needed` hint left by a previous call. -/
structure PacketDecoderState where
  needed : Option Nat
deriving DecidableEq, Repr

/-- The early-return hint check at the top of `PacketDecoder::decode`:

  if let Some(n) = self.needed && src.len() < n \x7b return Ok(None) \x7d -/
def needMoreHint (d : PacketDecoderState) (srcLen : Nat) : Bool :=
  match d.needed with
  | some n => srcLen < n
  | none => false

/-- Outcome of one `decode` call.  `needMore` is the `Ok(None)` result.
`packet` carries the decoded value, the bytes split off the buffer and
handed to the returned `Packet` (`src.split_to(state.offset)`), and the
bytes that remain in the buffer afterwards. -/
inductive DecodeOut (α : Type)
  | needMore
  | packet (data : α) (frameBytes : List Nat) (afterBytes : List Nat)
deriving DecidableEq, Repr

/-- `PacketDecoder::decode` from `src/protocol/mod.rs`, parameterised by the
typed payload decoder `decP` (the `T::decode_packet` call).  Faithful to the
source: the `needed` hint short-circuit; the VarInt length prefix whose
`UnexpectedEof` becomes `NeedMore`; the sign check on the raw length (the
pattern at or above `2 ^ 31` means `raw_len < 0`); the availability check
`len + state.offset > src.len()` that sets the hint; the narrowing of the
readable view to the declared frame extent; the packet-id VarInt whose
`UnexpectedEof` also becomes `NeedMore`; and on success the
`src.split_to(state.offset)` and the clearing of the hint. -/
def decodeStep {α : Type} (decP : Nat → DecoderState → Except DErr (α × DecoderState))
    (d : PacketDecoderState) (src : List Nat) :
    Except DErr (DecodeOut α) × PacketDecoderState :=
  if needMoreHint d src.length then (.ok .needMore, d)
  else
    match read_var_int { buffer := src, offset := 0 } with
    | .error .eof => (.ok .needMore, d)
    | .error e => (.error e, d)
    | .ok (rawLen, s1) =>
      if 2 ^ 31 ≤ rawLen then (.error .invalidData, d)
      else if src.length < rawLen + s1.offset then
        (.ok .needMore, { needed := some rawLen })
      else
        match read_var_int { buffer := src.take (s1.offset + rawLen),
                             offset := s1.offset } with
        | .error .eof => (.ok .needMore, d)
        | .error e => (.error e, d)
        | .ok (kind, s3) =>
          match decP kind s3 with
          | .error e => (.error e, d)
          | .ok (pkt, s4) =>
            (.ok (.packet pkt (src.take s4.offset) (src.drop s4.offset)),
             { needed := none })

/-- `STATUS_RESPONSE` from `src/main.rs`: a raw string literal spanning
twelve lines, pretty-printed with four-space indentation. -/
def STATUS_RESPONSE : String :=
  "\x7b\n    \"version\": \x7b\n        \"name\": \"1.21.7\",\n        \"protocol\": 772\n    \x7d,\n    \"players\": \x7b\n        \"max\": 0,\n        \"online\": 0\n    \x7d,\n    \"description\": \"Not a Minecraft server\",\n    \"enforceSecureProfile\": false\n\x7d"

/-- The compact single-line JSON document the specification displays for
the status response. -/
def compactStatusJson : String :=
  "\x7b\"version\":\x7b\"name\":\"1.21.7\",\"protocol\":772\x7d,\"players\":\x7b\"max\":0,\"online\":0\x7d,\"description\":\"Not a Minecraft server\",\"enforceSecureProfile\":false\x7d"

/-- Client-bound status packets (`src/protocol/status.rs`). -/
inductive StatusCB
  | statusResponse (json : String)
  | pingResponse (ts : Nat)
deriving DecidableEq, Repr

/-- One result of `reader.next()` inside `status_handler` (`src/main.rs`):
a decoded packet, a read or decode error (`req?` fails), an elapsed
5-second timeout (`timeout(...)?` fails), or end of stream (`None`). -/
inductive ReadEvent
  | packet (p : StatusSB)
  | readErr
  | timedOut
  | streamEnd
deriving DecidableEq, Repr

/-- What a run of the `status_handler` loop did: the responses written, in
order; whether `writer.close()` was reached; whether the handler returned
`Ok`. -/
structure HandlerResult where
  sent : List StatusCB
  closedW : Bool
  isOk : Bool
deriving DecidableEq, Repr

/-- The loop of `status_handler` (`src/main.rs`), over the sequence of
read results.  The condition

  while let Some(req) = timeout(Duration::from_secs(5), reader.next()).await?
      && !ping_sent

evaluates the read first (so a timeout or a read error fires even after
the ping was answered) and checks `ping_sent` afterwards.  A second
`StatusRequest` breaks out of the loop.  The `?` on the timeout and on
`req` returns from the handler at once, skipping the final
`writer.close()`; the two normal exits (stream end, loop condition
false) and the `break` reach it.  An exhausted event list stands for
`reader.next()` returning `None`.  Writes themselves are assumed to
succeed. -/
def statusLoop : List ReadEvent → Bool → Bool → HandlerResult
  | [], _, _ => ⟨[], true, true⟩
  | e :: rest, status_sent, ping_sent =>
    match e with
    | .timedOut => ⟨[], false, false⟩
    | .readErr => ⟨[], false, false⟩
    | .streamEnd => ⟨[], true, true⟩
    | .packet p =>
      if ping_sent then ⟨[], true, true⟩
      else
        match p with
        | .statusRequest =>
          if status_sent then ⟨[], true, true⟩
          else
            let r := statusLoop rest true ping_sent
            ⟨.statusResponse STATUS_RESPONSE :: r.sent, r.closedW, r.isOk⟩
        | .pingRequest ts =>
          let r := statusLoop rest status_sent true
          ⟨.pingResponse ts :: r.sent, r.closedW, r.isOk⟩

/-- `status_handler` starts with `status_sent = false`, `ping_sent = false`. -/
def status_handler (events : List ReadEvent) : HandlerResult :=
  statusLoop events false false

/-- Outcome of `connection_handler` (`src/main.rs`) as far as the claims
about its control flow are concerned.  `failed` is an early error return
before the backend dial — in particular before any `spawn_once` call and
before anything is written in either direction.  `forwarded` is the
successful-dial branch with the bytes written to the backend before the
splice.  `localStatus` / `localLogin` are the dial-failure branches, in
which `spawn_once` has been called and the respective handler loop runs
on the remaining buffered bytes. -/
inductive ConnOutcome
  | failed
  | forwarded (frameBytes : List Nat)
  | localStatus (restBytes : List Nat)
  | localLogin (restBytes : List Nat)
deriving DecidableEq, Repr

/-- The control flow of `connection_handler` on the bytes the client
sends, with the whole input treated as already buffered: decode one
handshake packet (a decode error propagates through
`.and_then(|r| r)?`; an incomplete frame means the stream ended first,
which the handler turns into `UnexpectedEof` via `.ok_or(...)`); then
branch on the dial result, `NextState::Transfer` being handled like
`NextState::Login`. -/
def connectionOutcome (dialOk : Bool) (input : List Nat) : ConnOutcome :=
  match (decodeStep handshakeDecode ⟨none⟩ input).1 with
  | .error _ => .failed
  | .ok .needMore => .failed
  | .ok (.packet pkt frameBytes restBytes) =>
    if dialOk then .forwarded frameBytes
    else
      match pkt.next_state with
      | .statusState => .localStatus restBytes
      | .loginState => .localLogin restBytes
      | .transferState => .localLogin restBytes

/-- Whether the outcome involved a `spawn_once` call: only the two
dial-failure local branches reach it. -/
def spawnCalled : ConnOutcome → Bool
  | .localStatus _ => true
  | .localLogin _ => true
  | _ => false

/-- Whether the outcome wrote any bytes to the client before finishing:
`failed` returns before any write. -/
def wroteToClient : ConnOutcome → Bool
  | .failed => false
  | .forwarded _ => true
  | .localStatus _ => true
  | .localLogin _ => true

/-- Result of the handshake-reading phase of `connection_handler` when the
client bytes arrive in chunks: the frame bytes handed to the packet, the
bytes left over in the `FramedRead` buffer, and the chunks not yet read
from the socket. -/
inductive FrameRead
  | gotFrame (frameBytes leftover : List Nat) (restChunks : List (List Nat))
  | noFrame
deriving DecidableEq, Repr

/-- The `FramedRead` loop that reads the handshake: try to decode the
buffered bytes; on `NeedMore` pull the next chunk from the socket and
retry; when the socket has no more chunks the read fails (end of
stream), as does a decode error. -/
def readFrameChunks : List (List Nat) → PacketDecoderState → List Nat → FrameRead
  | chunks, d, buffered =>
    match decodeStep handshakeDecode d buffered with
    | (.error _, _) => .noFrame
    | (.ok (.packet _ frameBytes leftover), _) => .gotFrame frameBytes leftover chunks
    | (.ok .needMore, d1) =>
      match chunks with
      | [] => .noFrame
      | c :: cs => readFrameChunks cs d1 (buffered ++ c)

/-- The bytes the backend receives on the forwarding path
(`src/main.rs` lines 130 to 137): first
`forward.write_all(&handshake_packet.buffer())` writes the raw frame
bytes, then `io::copy_bidirectional(&mut socket, &mut forward)` splices
the raw socket — the chunks not yet pulled from it.  The bytes that the
`FramedRead` had already pulled past the frame sit in its internal
buffer, which is dropped with the reader, so they are never written to
the backend. -/
def backendReceived (chunks : List (List Nat)) : Option (List Nat) :=
  match readFrameChunks chunks ⟨none⟩ [] with
  | .gotFrame frameBytes _ restChunks => some (frameBytes ++ restChunks.flatten)
  | .noFrame => none

/-- Modelled from the spec: what the forwarding contract promises the
backend receives — the raw frame bytes followed by every byte the client
sent after the frame, whether it was already buffered by the reader or
still on the socket. -/
def backendReceivedSpec (chunks : List (List Nat)) : Option (List Nat) :=
  match readFrameChunks chunks ⟨none⟩ [] with
  | .gotFrame frameBytes leftover restChunks =>
    some (frameBytes ++ leftover ++ restChunks.flatten)
  | .noFrame => none

/-- Status of one spawned child process. -/
inductive ChildStatus
  | running
  | exited
deriving DecidableEq, Repr

/-- The supervisor world for `ExternalProcess::spawn_once`
(`src/external_process.rs`): every child spawned so far, in spawn order.
The `JoinHandle` stored in `self.state` tracks the most recent one, so
`lock.as_mut()` is the last element and `task.is_finished()` asks
whether that child has exited. -/
def spawn_once_model (s : List ChildStatus) : Bool × List ChildStatus :=
  match s.getLast? with
  | some .running => (false, s)
  | _ => (true, s ++ [.running])

/-- Interference between two `spawn_once` calls: children may exit (the
OS transition `running → exited`), and nothing else changes. -/
def childStep (a b : ChildStatus) : Prop := a = b ∨ b = .exited

/-- The environment relation: the same children, each either unchanged or
newly exited. -/
def progresses (s s' : List ChildStatus) : Prop := List.Forall₂ childStep s s'

/-- The single-flight invariant: every child but the tracked (last) one
has exited. -/
def SupInv (s : List ChildStatus) : Prop :=
  ∀ c ∈ s.dropLast, c = ChildStatus.exited

/-- Number of children currently alive. -/
def aliveCount (s : List ChildStatus) : Nat :=
  (s.filter (fun c => c = ChildStatus.running)).length

/-- The buffer does not yet hold a complete frame: the VarInt length
prefix itself is absent or incomplete (`UnexpectedEof`), or the prefix
decodes to a non-negative length larger than the payload bytes present. -/
def frameIncomplete (src : List Nat) : Prop :=
  read_var_int { buffer := src, offset := 0 } = .error .eof ∨
  ∃ (rawLen : Nat) (s1 : DecoderState),
    read_var_int { buffer := src, offset := 0 } = .ok (rawLen, s1) ∧
    rawLen < 2 ^ 31 ∧ src.length < rawLen + s1.offset

/-- Number of `StatusResponse` packets in a list of sent responses. -/
def statusRespCount (l : List StatusCB) : Nat :=
  (l.filter fun r =>
    match r with
    | .statusResponse _ => true
    | .pingResponse _ => false).length

/-- Helper: on any negative input the `write_var_int` loop never reaches
its exit condition — the arithmetic shift keeps the value negative — so
the fuelled model returns `none` for every fuel. -/
theorem write_var_int_fuel_neg (fuel : Nat) :
    ∀ v : Int, v < 0 → write_var_int_fuel fuel v = none := by
  induction fuel with
  | zero => intro v _; rfl
  | succ n ih =>
    intro v hv
    have hq : v / 128 < 0 := by omega
    simp only [write_var_int_fuel]
    rw [if_neg (by omega), ih _ hq]
    rfl

/-- C1: the claimed round trip `read_var_int (write_var_int v) = v` with
byte count `var_int_size v` fails on the code for every negative `v`:
the `write_var_int` loop never terminates there (its arithmetic shift
`int >>= 7` keeps the accumulator negative forever), so no byte sequence
is produced at all.  For non-negative inputs the round trip does hold,
illustrated here at `v = 300`. -/
theorem c1_round_trip_diverges_for_negatives :
    (∀ (fuel : Nat) (v : Int), v < 0 → write_var_int_fuel fuel v = none)
    ∧ write_var_int_fuel 6 300 = some [172, 2]
    ∧ read_var_int { buffer := [172, 2], offset := 0 } =
        .ok (300, { buffer := [172, 2], offset := 2 })
    ∧ toSigned32 300 = 300
    ∧ var_int_size 300 = 2 :=
  ⟨write_var_int_fuel_neg, rfl, rfl, rfl, rfl⟩

/-- Witness for C1 at the concrete input `v = -1`. -/
theorem c1_round_trip_diverges_for_negatives_witness :
    (-1 : Int) < 0 ∧ write_var_int_fuel 9 (-1) = none :=
  ⟨by norm_num, c1_round_trip_diverges_for_negatives.1 9 (-1) (by norm_num)⟩

/-- C2: the claimed byte counts hold for the seven non-negative boundary
inputs and they match `var_int_size`, but `write_var_int` does not
terminate on any negative input: at `-1` and at `i32::MIN` the loop runs
forever (modelled by `none` at every fuel), instead of emitting the five
bytes the claim — and the code's own `var_int_size` — promise. -/
theorem c2_write_var_int_diverges_on_negatives :
    ((write_var_int_fuel 6 0).map List.length = some 1 ∧ var_int_size 0 = 1)
    ∧ ((write_var_int_fuel 6 127).map List.length = some 1 ∧ var_int_size 127 = 1)
    ∧ ((write_var_int_fuel 6 128).map List.length = some 2 ∧ var_int_size 128 = 2)
    ∧ ((write_var_int_fuel 6 16383).map List.length = some 2
        ∧ var_int_size 16383 = 2)
    ∧ ((write_var_int_fuel 6 2097151).map List.length = some 3
        ∧ var_int_size 2097151 = 3)
    ∧ ((write_var_int_fuel 6 268435455).map List.length = some 4
        ∧ var_int_size 268435455 = 4)
    ∧ ((write_var_int_fuel 6 2147483647).map List.length = some 5
        ∧ var_int_size 2147483647 = 5)
    ∧ (∀ fuel : Nat, write_var_int_fuel fuel (-1) = none
        ∧ write_var_int_fuel fuel (-(2 ^ 31)) = none)
    ∧ var_int_size (-1) = 5 ∧ var_int_size (-(2 ^ 31)) = 5 :=
  ⟨⟨rfl, rfl⟩, ⟨rfl, rfl⟩, ⟨rfl, rfl⟩, ⟨rfl, rfl⟩, ⟨rfl, rfl⟩, ⟨rfl, rfl⟩,
   ⟨rfl, rfl⟩,
   fun fuel => ⟨write_var_int_fuel_neg fuel (-1) (by norm_num),
                write_var_int_fuel_neg fuel (-(2 ^ 31)) (by norm_num)⟩,
   rfl, rfl⟩

/-- C3: the decoder is not total — it panics.  Three frames whose
declared length truncates a fixed-width field make the `Read`
implementation of `DecoderState` call `copy_from_slice` with mismatched
slice lengths: a handshake frame leaving one byte for the u16 port, a
status frame leaving one byte for the i64 ping timestamp, and a login
frame leaving one byte for the u128 uuid.  In the model the panic
surfaces as the distinguished `DErr.panicked`, which is none of the
three contract outcomes. -/
theorem c3_decoder_panics_on_truncated_fields :
    (decodeStep handshakeDecode ⟨none⟩ [4, 0, 0, 0, 171]).1 = .error .panicked
    ∧ (decodeStep statusDecode ⟨none⟩ [2, 1, 171]).1 = .error .panicked
    ∧ (decodeStep loginDecode ⟨none⟩ [3, 0, 0, 205]).1 = .error .panicked :=
  ⟨rfl, rfl, rfl⟩

/-- C4: on the forwarding path the backend does not receive the bytes the
client sent immediately after the handshake frame.  The client sends the
seven-byte handshake frame plus one extra byte `0xAA` in a single
segment; the reader pulls all eight bytes into its buffer before the
frame is decoded, and the extra byte — left in the reader buffer, which
is dropped — never reaches the backend, while the contract
(`backendReceivedSpec`, modelled from the spec) requires it to. -/
theorem c4_forwarding_drops_buffered_bytes :
    backendReceived [[6, 0, 0, 0, 0, 0, 2, 170]] = some [6, 0, 0, 0, 0, 0, 2]
    ∧ backendReceivedSpec [[6, 0, 0, 0, 0, 0, 2, 170]] =
        some [6, 0, 0, 0, 0, 0, 2, 170]
    ∧ backendReceived [[6, 0, 0, 0, 0, 0, 2, 170]] ≠
        backendReceivedSpec [[6, 0, 0, 0, 0, 0, 2, 170]] :=
  ⟨rfl, rfl, by decide⟩

/-- Helper: the single-flight invariant is preserved by `spawn_once` —
a new child is appended only when the previously tracked child (the last
entry) is no longer running. -/
theorem supInv_spawn (s : List ChildStatus) (hInv : SupInv s) :
    SupInv (spawn_once_model s).2 := by
  unfold spawn_once_model
  cases hl : s.getLast? with
  | none =>
    have hs : s = [] := List.getLast?_eq_none_iff.mp hl
    subst hs
    intro c hc
    simp [List.dropLast] at hc
  | some a =>
    cases a with
    | running => simpa using hInv
    | exited =>
      simp only
      intro c hc
      rw [List.dropLast_concat] at hc
      rcases List.eq_nil_or_concat s with rfl | ⟨t, b, rfl⟩
      · simp at hl
      · simp only [List.concat_eq_append] at hl hc hInv ⊢
        have hb : b = ChildStatus.exited := by
          rw [List.getLast?_concat] at hl
          exact (Option.some.injEq _ _).mp hl
        rcases List.mem_append.mp hc with h | h
        · exact hInv c (by rw [List.dropLast_concat]; exact h)
        · rw [List.mem_singleton.mp h, hb]

/-- Helper: the single-flight invariant survives children exiting. -/
theorem supInv_progresses : ∀ {s s' : List ChildStatus},
    progresses s s' → SupInv s → SupInv s' := by
  intro s s' hp
  induction hp with
  | nil => intro _ c hc; simp at hc
  | @cons a b t t' hab htail ih =>
    intro hInv c hc
    cases t' with
    | nil => simp at hc
    | cons x xs =>
      obtain ⟨y, ys, rfl⟩ : ∃ y ys, t = y :: ys := by
        cases t with
        | nil => cases htail
        | cons y ys => exact ⟨y, ys, rfl⟩
      have hInvT : SupInv (y :: ys) := by
        intro d hd
        apply hInv d
        rw [List.dropLast_cons₂]
        exact List.mem_cons_of_mem a hd
      rw [List.dropLast_cons₂] at hc
      rcases List.mem_cons.mp hc with hcb | hcc
      · subst hcb
        rcases hab with heq | hex
        · rw [← heq]
          exact hInv a (by rw [List.dropLast_cons₂]; exact List.mem_cons_self a _)
        · exact hex
      · exact ih hInvT c hcc

/-- Helper: under the single-flight invariant at most one child is
alive. -/
theorem supInv_aliveCount (s : List ChildStatus) (h : SupInv s) :
    aliveCount s ≤ 1 := by
  rcases List.eq_nil_or_concat s with rfl | ⟨t, a, rfl⟩
  · simp [aliveCount]
  · simp only [List.concat_eq_append] at h ⊢
    have ht : t.filter (fun c => c = ChildStatus.running) = [] := by
      rw [List.filter_eq_nil_iff]
      intro c hc
      have : c = ChildStatus.exited := h c (by rw [List.dropLast_concat]; exact hc)
      simp [this]
    unfold aliveCount
    rw [List.filter_append, ht]
    cases a <;> simp

/-- C5: `spawn_once` returns `false` and changes nothing while the
tracked child is still running; when the tracked child has exited — or
none was ever spawned — it spawns a new child and returns `true`.
Together with the invariant that every non-tracked child has exited
(preserved both by `spawn_once` and by children exiting), at most one
child is alive at any time. -/
theorem c5_spawn_once_single_flight :
    (∀ s : List ChildStatus, s.getLast? = some .running →
      spawn_once_model s = (false, s))
    ∧ (∀ s : List ChildStatus, s.getLast? = some .exited →
      spawn_once_model s = (true, s ++ [.running]))
    ∧ spawn_once_model [] = (true, [.running])
    ∧ (∀ s : List ChildStatus, SupInv s → SupInv (spawn_once_model s).2)
    ∧ (∀ s s' : List ChildStatus, progresses s s' → SupInv s → SupInv s')
    ∧ (∀ s : List ChildStatus, SupInv s → aliveCount s ≤ 1) := by
  refine ⟨?_, ?_, rfl, supInv_spawn, ?_, supInv_aliveCount⟩
  · intro s h
    simp [spawn_once_model, h]
  · intro s h
    simp [spawn_once_model, h]
  · intro s s' hp hi
    exact supInv_progresses hp hi

/-- Witness for C5: a supervisor whose only child is still running
refuses to spawn; once that child has exited, the next call spawns and
returns `true`, and the invariant with its alive bound holds for the new
state. -/
theorem c5_spawn_once_single_flight_witness :
    spawn_once_model [ChildStatus.running] = (false, [ChildStatus.running])
    ∧ spawn_once_model [ChildStatus.exited] =
        (true, [ChildStatus.exited, ChildStatus.running])
    ∧ SupInv [ChildStatus.exited, ChildStatus.running]
    ∧ aliveCount [ChildStatus.exited, ChildStatus.running] ≤ 1 := by
  have hinv : SupInv [ChildStatus.exited, ChildStatus.running] := by
    intro c hc
    simp [List.dropLast] at hc
    rw [hc]
  refine ⟨c5_spawn_once_single_flight.1 _ rfl,
          c5_spawn_once_single_flight.2.1 _ rfl, hinv,
          c5_spawn_once_single_flight.2.2.2.2.2 _ hinv⟩

/-- C6 counterexample: the reply to a `StatusRequest` carries the
multi-line pretty-printed `STATUS_RESPONSE` literal of `src/main.rs`,
which is not byte-for-byte the compact JSON literal displayed by the
claim — the two strings differ (the code literal contains newlines and
indentation). -/
theorem c6_status_json_not_compact_counterexample :
    status_handler [ReadEvent.packet .statusRequest] =
      ⟨[StatusCB.statusResponse STATUS_RESPONSE], true, true⟩
    ∧ STATUS_RESPONSE ≠ compactStatusJson :=
  ⟨rfl, by decide⟩

/-- C6 (amended): every `StatusResponse` the status loop ever sends
carries exactly the contents of the `STATUS_RESPONSE` constant — the
same JSON object as the claimed literal, but pretty-printed over twelve
lines with four-space indentation. -/
theorem c6_status_json_is_source_literal :
    ∀ (events : List ReadEvent) (ss ps : Bool) (j : String),
      StatusCB.statusResponse j ∈ (statusLoop events ss ps).sent →
      j = STATUS_RESPONSE := by
  intro events
  induction events with
  | nil => intro ss ps j h; simp [statusLoop] at h
  | cons e rest ih =>
    intro ss ps j h
    cases e with
    | timedOut => simp [statusLoop] at h
    | readErr => simp [statusLoop] at h
    | streamEnd => simp [statusLoop] at h
    | packet p =>
      cases ps with
      | true => simp [statusLoop] at h
      | false =>
        cases p with
        | statusRequest =>
          cases ss with
          | true => simp [statusLoop] at h
          | false =>
            simp only [statusLoop] at h
            rcases List.mem_cons.mp h with heq | hmem
            · exact (StatusCB.statusResponse.injEq _ _).mp heq
            · exact ih _ _ _ hmem
        | pingRequest ts =>
          simp only [statusLoop] at h
          rcases List.mem_cons.mp h with heq | hmem
          · cases heq
          · exact ih _ _ _ hmem

/-- Witness for C6 at the concrete run answering one `StatusRequest`. -/
theorem c6_status_json_is_source_literal_witness :
    StatusCB.statusResponse STATUS_RESPONSE ∈
      (statusLoop [ReadEvent.packet .statusRequest] false false).sent
    ∧ STATUS_RESPONSE = STATUS_RESPONSE := by
  have hm : StatusCB.statusResponse STATUS_RESPONSE ∈
      (statusLoop [ReadEvent.packet .statusRequest] false false).sent := by
    simp [statusLoop]
  exact ⟨hm, c6_status_json_is_source_literal _ _ _ _ hm⟩

/-- Helper: once the ping was answered, the next loop iteration sends
nothing more — whatever the next read yields, the loop exits (or errors)
without another response. -/
theorem statusLoop_after_ping (events : List ReadEvent) (ss : Bool) :
    (statusLoop events ss true).sent = [] := by
  cases events with
  | nil => rfl
  | cons e rest => cases e <;> rfl

/-- Helper: once a `StatusResponse` was sent (`status_sent = true`), no
later iteration sends another one. -/
theorem statusRespCount_after_status (events : List ReadEvent) (ps : Bool) :
    statusRespCount (statusLoop events true ps).sent = 0 := by
  cases events with
  | nil => rfl
  | cons e rest =>
    cases e with
    | timedOut => rfl
    | readErr => rfl
    | streamEnd => rfl
    | packet p =>
      cases ps with
      | true => rfl
      | false =>
        cases p with
        | statusRequest => rfl
        | pingRequest ts =>
          simp only [statusLoop]
          rw [show (statusLoop rest true true).sent = []
               from statusLoop_after_ping rest true]
          rfl

/-- Helper: a run starting with no `StatusResponse` sent answers at most
one `StatusRequest`. -/
theorem statusRespCount_le_one (events : List ReadEvent) (ps : Bool) :
    statusRespCount (statusLoop events false ps).sent ≤ 1 := by
  cases events with
  | nil => simp [statusLoop, statusRespCount]
  | cons e rest =>
    cases e with
    | timedOut => simp [statusLoop, statusRespCount]
    | readErr => simp [statusLoop, statusRespCount]
    | streamEnd => simp [statusLoop, statusRespCount]
    | packet p =>
      cases ps with
      | true => simp [statusLoop, statusRespCount]
      | false =>
        cases p with
        | statusRequest =>
          simp only [statusLoop]
          have h0 := statusRespCount_after_status rest false
          simp only [statusRespCount, List.filter] at h0 ⊢
          rw [List.length_cons, h0]
        | pingRequest ts =>
          simp only [statusLoop]
          rw [show (statusLoop rest false true).sent = []
               from statusLoop_after_ping rest false]
          simp [statusRespCount]

/-- Helper: the writer is closed exactly on the `Ok` exits of the status
loop — the error exits return early through `?` and skip the close. -/
theorem statusLoop_closed_iff_ok (events : List ReadEvent) :
    ∀ ss ps : Bool,
      (statusLoop events ss ps).isOk = (statusLoop events ss ps).closedW := by
  induction events with
  | nil => intro ss ps; rfl
  | cons e rest ih =>
    intro ss ps
    cases e with
    | timedOut => rfl
    | readErr => rfl
    | streamEnd => rfl
    | packet p =>
      cases ps with
      | true => rfl
      | false =>
        cases p with
        | statusRequest =>
          cases ss with
          | true => rfl
          | false => simpa only [statusLoop] using ih true false
        | pingRequest ts => simpa only [statusLoop] using ih ss true

/-- C7 counterexample: a read or decode error makes `status_handler`
return through `?` without reaching `writer.close()` — the loop exits
with the writer not closed, against the claim that the writer is closed
on every exit. -/
theorem c7_error_exit_skips_close_counterexample :
    status_handler [ReadEvent.readErr] =
      { sent := [], closedW := false, isOk := false } := rfl

/-- C7 (amended): the status loop answers at most one `StatusRequest`
(a second one terminates the loop without a reply), answers
`PingRequest ts` with `PingResponse ts` and sends nothing afterwards,
terminates at once on a read error or timeout, and reaches the explicit
`writer.close()` exactly on the non-error exits: on error exits the
handler returns early through `?` and the writer is closed only when the
connection is dropped. -/
theorem c7_status_loop_contract :
    (∀ (events : List ReadEvent) (ps : Bool),
      statusRespCount (statusLoop events false ps).sent ≤ 1)
    ∧ (∀ (events : List ReadEvent) (ps : Bool),
      statusLoop (ReadEvent.packet .statusRequest :: events) true ps =
        { sent := [], closedW := true, isOk := true })
    ∧ (∀ events : List ReadEvent,
      (statusLoop (ReadEvent.packet .statusRequest :: events) false false).sent.head? =
        some (StatusCB.statusResponse STATUS_RESPONSE))
    ∧ (∀ (events : List ReadEvent) (ss : Bool) (ts : Nat),
      (statusLoop (ReadEvent.packet (.pingRequest ts) :: events) ss false).sent =
        [StatusCB.pingResponse ts])
    ∧ (∀ (events : List ReadEvent) (ss ps : Bool),
      statusLoop (ReadEvent.readErr :: events) ss ps =
        { sent := [], closedW := false, isOk := false })
    ∧ (∀ (events : List ReadEvent) (ss ps : Bool),
      statusLoop (ReadEvent.timedOut :: events) ss ps =
        { sent := [], closedW := false, isOk := false })
    ∧ (∀ (events : List ReadEvent) (ss ps : Bool),
      (statusLoop events ss ps).isOk = (statusLoop events ss ps).closedW) := by
  refine ⟨statusRespCount_le_one, ?_, ?_, ?_, ?_, ?_,
          fun events ss ps => statusLoop_closed_iff_ok events ss ps⟩
  · intro events ps
    cases ps <;> rfl
  · intro events
    rfl
  · intro events ss ts
    simp only [statusLoop]
    rw [statusLoop_after_ping events ss]
    rfl
  · intro events ss ps
    rfl
  · intro events ss ps
    rfl

/-- C8: while the buffer holds no complete frame — the length prefix is
absent or incomplete, or fewer payload bytes are present than the
declared length — `decode` returns `NeedMore` regardless of the stored
`needed` hint, consuming nothing (the buffer is only split on the packet
path), and calling it again on the same buffer again returns
`NeedMore`. -/
theorem c8_incomplete_frame_needs_more {α : Type}
    (decP : Nat → DecoderState → Except DErr (α × DecoderState))
    (d : PacketDecoderState) (src : List Nat) (h : frameIncomplete src) :
    (decodeStep decP d src).1 = .ok .needMore
    ∧ (decodeStep decP (decodeStep decP d src).2 src).1 = .ok .needMore := by
  have main : ∀ d' : PacketDecoderState,
      (decodeStep decP d' src).1 = .ok .needMore := by
    intro d'
    unfold decodeStep
    cases hh : needMoreHint d' src.length with
    | true => simp
    | false =>
      simp only [Bool.false_eq_true, if_false]
      rcases h with he | ⟨L, s1, h1, h2, h3⟩
      · rw [he]
      · rw [h1]
        simp only
        rw [if_neg (by omega), if_pos (by omega)]
  exact ⟨main d, main _⟩

/-- Witness for C8: the buffer `[5]` is a bare length prefix declaring a
five-byte frame with no payload present; the decoder asks for more
bytes instead of erroring, twice in a row. -/
theorem c8_incomplete_frame_needs_more_witness :
    frameIncomplete [5]
    ∧ (decodeStep statusDecode ⟨none⟩ [5]).1 = .ok .needMore
    ∧ (decodeStep statusDecode (decodeStep statusDecode ⟨none⟩ [5]).2 [5]).1 =
        .ok .needMore := by
  have hfi : frameIncomplete [5] :=
    Or.inr ⟨5, { buffer := [5], offset := 1 }, rfl, by norm_num, by norm_num⟩
  obtain ⟨h1, h2⟩ := c8_incomplete_frame_needs_more statusDecode ⟨none⟩ [5] hfi
  exact ⟨hfi, h1, h2⟩

/-- C10: when the hint does not short-circuit and the length prefix, the
packet id and the typed payload decode all succeed within the declared
extent, `decode` returns the packet with exactly the prefix of the
buffer that was read — `src.split_to(state.offset)` — attached as its
backing bytes, the rest of the buffer (including any declared payload
bytes the payload decoder did not read) staying in place to be decoded
as the next frame, and the `needed` hint cleared. -/
theorem c10_success_consumes_exactly_read_bytes {α : Type}
    (decP : Nat → DecoderState → Except DErr (α × DecoderState))
    (d : PacketDecoderState) (src : List Nat) (rawLen kind : Nat)
    (s1 s3 s4 : DecoderState) (pkt : α)
    (hh : needMoreHint d src.length = false)
    (h1 : read_var_int { buffer := src, offset := 0 } = .ok (rawLen, s1))
    (h2 : rawLen < 2 ^ 31)
    (h3 : rawLen + s1.offset ≤ src.length)
    (h4 : read_var_int { buffer := src.take (s1.offset + rawLen),
                         offset := s1.offset } = .ok (kind, s3))
    (h5 : decP kind s3 = .ok (pkt, s4)) :
    decodeStep decP d src =
      (.ok (.packet pkt (src.take s4.offset) (src.drop s4.offset)), ⟨none⟩) := by
  unfold decodeStep
  rw [hh]
  simp only [Bool.false_eq_true, if_false]
  rw [h1]
  simp only
  rw [if_neg (by omega), if_neg (by omega), h4]
  simp only
  rw [h5]

/-- Witness for C10: the status frame `[3, 0]` declares a three-byte
payload of which the `StatusRequest` decoder reads only the id byte; the
decoder consumes the two bytes actually read, attaches exactly them to
the packet, and leaves the two unread trailing bytes `[1, 0]` in the
buffer, where the next call decodes them as a fresh frame (again a
`StatusRequest`). -/
theorem c10_success_consumes_exactly_read_bytes_witness :
    decodeStep statusDecode ⟨none⟩ [3, 0, 1, 0] =
      (.ok (.packet StatusSB.statusRequest [3, 0] [1, 0]), ⟨none⟩)
    ∧ decodeStep statusDecode ⟨none⟩ [1, 0] =
      (.ok (.packet StatusSB.statusRequest [1, 0] []), ⟨none⟩) := by
  constructor
  · exact c10_success_consumes_exactly_read_bytes statusDecode ⟨none⟩ [3, 0, 1, 0]
      3 0 { buffer := [3, 0, 1, 0], offset := 1 }
      { buffer := [3, 0, 1, 0], offset := 2 }
      { buffer := [3, 0, 1, 0], offset := 2 }
      StatusSB.statusRequest rfl rfl (by norm_num) (by norm_num) rfl rfl
  · rfl

/-- C9: a handshake frame whose packet id is not 0 fails with
`InvalidData`; so does one whose next-state VarInt decodes to anything
but 1, 2 or 3; and whenever the handshake decode errors, the connection
handler returns before the backend dial — `spawn_once` is never called
and nothing is written to the client. -/
theorem c9_invalid_handshake_rejected :
    (∀ (number : Nat) (s : DecoderState), number ≠ 0 →
      handshakeDecode number s = .error .invalidData)
    ∧ (∀ (s s1 s2 s3 s4 : DecoderState) (version k : Nat)
        (addr pb : List Nat),
      read_var_int s = .ok (version, s1) →
      read_string s1 = .ok (addr, s2) →
      DecoderState.readExact s2 2 = .ok (pb, s3) →
      read_var_int s3 = .ok (k, s4) →
      k ≠ 1 → k ≠ 2 → k ≠ 3 →
      handshakeDecode 0 s = .error .invalidData)
    ∧ (∀ (dialOk : Bool) (input : List Nat) (e : DErr),
      (decodeStep handshakeDecode ⟨none⟩ input).1 = .error e →
      connectionOutcome dialOk input = .failed
        ∧ spawnCalled (connectionOutcome dialOk input) = false
        ∧ wroteToClient (connectionOutcome dialOk input) = false) := by
  refine ⟨?_, ?_, ?_⟩
  · intro number s h
    simp [handshakeDecode, h]
  · intro s s1 s2 s3 s4 version k addr pb h1 h2 h3 h4 hk1 hk2 hk3
    unfold handshakeDecode
    rw [if_neg (by simp)]
    rw [h1]
    simp only
    rw [h2]
    simp only
    rw [h3]
    simp only
    rw [h4]
    simp only
  · intro dialOk input e h
    have hout : connectionOutcome dialOk input = .failed := by
      unfold connectionOutcome
      rw [h]
    exact ⟨hout, by rw [hout]; rfl, by rw [hout]; rfl⟩

/-- Witness for C9: the seven-byte handshake frame with `next_state = 42`
(id 0, version 0, empty address, port 0); its decode fails with
`InvalidData` and the connection handler spawns nothing and writes
nothing, whatever the dial would have done. -/
theorem c9_invalid_handshake_rejected_witness :
    handshakeDecode 1 { buffer := [], offset := 0 } = .error .invalidData
    ∧ handshakeDecode 0 { buffer := [0, 0, 0, 0, 42], offset := 0 } =
        .error .invalidData
    ∧ (decodeStep handshakeDecode ⟨none⟩ [6, 0, 0, 0, 0, 0, 42]).1 =
        .error .invalidData
    ∧ connectionOutcome true [6, 0, 0, 0, 0, 0, 42] = .failed
    ∧ spawnCalled (connectionOutcome true [6, 0, 0, 0, 0, 0, 42]) = false
    ∧ wroteToClient (connectionOutcome true [6, 0, 0, 0, 0, 0, 42]) = false := by
  obtain ⟨hf, hs, hw⟩ :=
    c9_invalid_handshake_rejected.2.2 true [6, 0, 0, 0, 0, 0, 42] .invalidData rfl
  refine ⟨c9_invalid_handshake_rejected.1 1 _ (by norm_num),
          c9_invalid_handshake_rejected.2.1
            { buffer := [0, 0, 0, 0, 42], offset := 0 }
            { buffer := [0, 0, 0, 0, 42], offset := 1 }
            { buffer := [0, 0, 0, 0, 42], offset := 2 }
            { buffer := [0, 0, 0, 0, 42], offset := 4 }
            { buffer := [0, 0, 0, 0, 42], offset := 5 }
            0 42 [] [0, 0] rfl rfl rfl rfl
            (by norm_num) (by norm_num) (by norm_num),
          rfl, hf, hs, hw⟩
